import Mathlib

/-!
# Review-history persistence and historical validation: a verification development

Shallow embedding of the review-history persistence and historical-validation
subsystem (storage interface, File backend, Turso backend, storage factory,
migration routine, approval-transition counter, historical validator) together
with theorems about the behaviour of these operations.

Modelling conventions:
* JavaScript strings are modelled as `List Char`, so every definition reduces
  inside the kernel; `String` literals are turned into `List Char` via
  `String.toList`.
* ISO-8601 timestamps are modelled as natural numbers: comparison of ISO-8601
  strings (as done with `new Date(x).getTime()` in the source) is
  order-isomorphic to comparison of the instants they denote.
* JavaScript numbers appearing in scores are modelled as rationals (`ℚ`); all
  score computations of the similarity algorithm stay on values where IEEE-754
  double arithmetic is order-faithful to exact rational arithmetic.
* Asynchronous methods are pure state-passing functions: a method that mutates
  the backing store takes the store and returns the updated store.
-/

namespace CodeBunny

/-- Strings of the JavaScript source, modelled as lists of characters. -/
abbrev Str := List Char

/-- Review outcome enum from storage-interface (src/unnamed/part_004):
`'MERGE' | 'DONT_MERGE' | 'MERGE_AFTER_CHANGES' | 'UNKNOWN'`. -/
inductive ReviewState
  | MERGE
  | DONT_MERGE
  | MERGE_AFTER_CHANGES
  | UNKNOWN
deriving DecidableEq, Repr

/-- `issuesFound: { high, medium, low }` from the snapshot metrics block. -/
structure IssuesFound where
  high : Nat
  medium : Nat
  low : Nat
deriving DecidableEq, Repr

/-- The `metrics` block of a `ReviewSnapshot` (src/unnamed/part_004). -/
structure ReviewMetrics where
  processingTime : Nat
  issuesFound : IssuesFound
  rulesApplied : Nat
  patternsDetected : Nat
deriving DecidableEq, Repr

/-- `ReviewSnapshot` from storage-interface (src/unnamed/part_004, lines 9-25).
The `timestamp` ISO string is modelled as a `Nat` (see module docstring). -/
structure ReviewSnapshot where
  timestamp : Nat
  prNumber : Nat
  prTitle : Str
  prAuthor : Str
  filesChanged : Nat
  reviewState : ReviewState
  reviewText : Str
  metrics : ReviewMetrics
  codebunnyMentioned : Bool
  commentId : Option Nat
deriving DecidableEq, Repr

/-- `ApprovalTransition` from storage-interface (src/unnamed/part_004, lines 27-34). -/
structure ApprovalTransition where
  timestamp : Nat
  prNumber : Nat
  repository : Str
  fromState : ReviewState
  toState : ReviewState
  triggerType : Str
deriving DecidableEq, Repr

/-! ## File backend (src/actions/codebunny/storage/file-storage.ts) -/

/-- The per-repository record stored in `review-data.json`
(interface `FileReviewData`, file-storage.ts lines 18-23; the `lastUpdated`
wall-clock field is irrelevant to every read and is omitted). -/
structure FileReviewData where
  repository : Str
  reviews : List ReviewSnapshot
  transitions : List ApprovalTransition
deriving DecidableEq, Repr

/-- The whole JSON document `review-data.json`: a
`Record<string, FileReviewData>` keyed by repository, modelled as an
association list. -/
abbrev FileStore := List (Str × FileReviewData)

namespace FileStorage

/-- `private readonly maxReviews = 100` (file-storage.ts line 29). -/
def maxReviews : Nat := 100

/-- The empty per-repository record returned by `loadData` when the document
has no entry for `repository` (file-storage.ts lines 193-206). -/
def emptyData (repository : Str) : FileReviewData :=
  { repository := repository, reviews := [], transitions := [] }

/-- JavaScript object indexing `allData[repository]` on the parsed document. -/
def lookupRepo : FileStore → Str → Option FileReviewData
  | [], _ => none
  | (k, d) :: rest, repository =>
    if k = repository then some d else lookupRepo rest repository

/-- `loadData` (file-storage.ts lines 188-208):
`allData[repository] || { repository, reviews: [], transitions: [], ... }`. -/
def loadData (store : FileStore) (repository : Str) : FileReviewData :=
  match lookupRepo store repository with
  | some d => d
  | none => emptyData repository

/-- `saveData` (file-storage.ts lines 210-230): set
`allData[repository] = data` and write the document back. -/
def saveData : FileStore → Str → FileReviewData → FileStore
  | [], repository, d => [(repository, d)]
  | (k, d0) :: rest, repository, d =>
    if k = repository then (repository, d) :: rest
    else (k, d0) :: saveData rest repository d

/-- `FileStorage.saveReview` (file-storage.ts lines 47-69): load the record,
push the new review, and when the array exceeds `maxReviews` keep only the
last `maxReviews` entries (`data.reviews.slice(-this.maxReviews)`, i.e. drop
the `length - maxReviews` front entries). -/
def saveReview (store : FileStore) (repository : Str) (snapshot : ReviewSnapshot) :
    FileStore :=
  let data := loadData store repository
  let pushed := data.reviews ++ [snapshot]
  let reviews :=
    if maxReviews < pushed.length then pushed.drop (pushed.length - maxReviews)
    else pushed
  saveData store repository { data with reviews := reviews }

/-- `FileStorage.getReviewHistory` (file-storage.ts lines 71-79):
`data.reviews.filter(r => r.prNumber === prNumber)` -- no sorting. -/
def getReviewHistory (store : FileStore) (repository : Str) (prNumber : Nat) :
    List ReviewSnapshot :=
  (loadData store repository).reviews.filter (fun r => decide (r.prNumber = prNumber))

end FileStorage

/-! ## Turso backend (src/unnamed/part_005) -/

/-- One row of the `ReviewSnapshot` table: the denormalized columns
(timestamp, repository, prNumber, ..., issuesHigh, issuesMedium, issuesLow)
hold exactly the fields of the snapshot plus the repository key, so the row is
modelled as the pair of both; `rowToSnapshot` (part_005 lines 385-407) is then
the `snap` projection. -/
structure TursoRow where
  repository : Str
  snap : ReviewSnapshot
deriving DecidableEq, Repr

/-- The `ReviewSnapshot` table, in insertion order (AUTOINCREMENT ids are the
list positions). -/
abbrev TursoDB := List TursoRow

namespace TursoStorage

/-- `TursoStorage.saveReview` (part_005 lines 140-185): a single SQL INSERT,
appending one row. -/
def saveReview (db : TursoDB) (repository : Str) (snapshot : ReviewSnapshot) :
    TursoDB :=
  db ++ [{ repository := repository, snap := snapshot }]

/-- The `ORDER BY timestamp ASC` comparison used by `getReviewHistory`. -/
def tsLe (a b : ReviewSnapshot) : Bool :=
  decide (a.timestamp ≤ b.timestamp)

/-- `TursoStorage.getReviewHistory` (part_005 lines 187-207):
`SELECT * FROM ReviewSnapshot WHERE repository = ? AND prNumber = ?
ORDER BY timestamp ASC`, then `rowToSnapshot` on every row. -/
def getReviewHistory (db : TursoDB) (repository : Str) (prNumber : Nat) :
    List ReviewSnapshot :=
  ((db.filter (fun row =>
      decide (row.repository = repository ∧ row.snap.prNumber = prNumber))).map
    TursoRow.snap).mergeSort tsLe

end TursoStorage

/-! ## Helper lemmas about the File store -/

namespace FileStorage

theorem lookupRepo_saveData (store : FileStore) (repository : Str)
    (d : FileReviewData) :
    lookupRepo (saveData store repository d) repository = some d := by
  induction store with
  | nil => simp [saveData, lookupRepo]
  | cons hd tl ih =>
    obtain ⟨k, d0⟩ := hd
    by_cases hk : k = repository
    · simp [saveData, hk, lookupRepo]
    · simp [saveData, hk, lookupRepo, ih]

theorem loadData_saveData (store : FileStore) (repository : Str)
    (d : FileReviewData) :
    loadData (saveData store repository d) repository = d := by
  simp [loadData, lookupRepo_saveData]

/-- The review array kept by `saveReview` is the last `maxReviews` entries of
the pushed array, uniformly (truncated subtraction makes the no-trim case a
`drop 0`). -/
theorem reviews_saveReview (store : FileStore) (repository : Str)
    (snapshot : ReviewSnapshot) :
    (loadData (saveReview store repository snapshot) repository).reviews =
      ((loadData store repository).reviews ++ [snapshot]).drop
        (((loadData store repository).reviews ++ [snapshot]).length - maxReviews) := by
  unfold saveReview
  rw [loadData_saveData]
  split
  · rfl
  · next h =>
    rw [Nat.sub_eq_zero_of_le (Nat.le_of_not_lt h), List.drop_zero]

theorem mem_reviews_saveReview (store : FileStore) (repository : Str)
    (snapshot : ReviewSnapshot) :
    snapshot ∈ (loadData (saveReview store repository snapshot) repository).reviews := by
  rw [reviews_saveReview]
  set l := (loadData store repository).reviews with hl
  have hle : (l ++ [snapshot]).length - maxReviews ≤ l.length := by
    simp only [List.length_append, List.length_singleton, maxReviews]
    omega
  rw [List.drop_append_of_le_length hle]
  exact List.mem_append_right _ (List.mem_singleton.mpr rfl)

end FileStorage

/-- C1: for every backend (File and Turso), every repository and every
snapshot, `saveReview repository snapshot` followed by
`getReviewHistory repository snapshot.prNumber` returns a sequence that
contains the saved snapshot. -/
theorem saveReview_then_getReviewHistory_contains
    (store : FileStore) (db : TursoDB) (repository : Str)
    (snapshot : ReviewSnapshot) :
    snapshot ∈ FileStorage.getReviewHistory
        (FileStorage.saveReview store repository snapshot) repository
        snapshot.prNumber ∧
      snapshot ∈ TursoStorage.getReviewHistory
        (TursoStorage.saveReview db repository snapshot) repository
        snapshot.prNumber := by
  constructor
  · unfold FileStorage.getReviewHistory
    rw [List.mem_filter]
    exact ⟨FileStorage.mem_reviews_saveReview store repository snapshot, by simp⟩
  · unfold TursoStorage.getReviewHistory
    rw [(List.mergeSort_perm _ _).mem_iff, List.mem_map]
    refine ⟨{ repository := repository, snap := snapshot }, ?_, rfl⟩
    rw [List.mem_filter]
    exact ⟨by simp [TursoStorage.saveReview], by simp⟩

/-! ## Retention behaviour of the File backend -/

namespace FileStorage

theorem drop_congr {α : Type} (a : List α) (i j : Nat)
    (h : i = j ∨ (a.length ≤ i ∧ a.length ≤ j)) : a.drop i = a.drop j := by
  rcases h with h | ⟨h1, h2⟩
  · rw [h]
  · rw [List.drop_eq_nil_of_le h1, List.drop_eq_nil_of_le h2]

/-- Keeping the last `n` entries of `a`, appending `b`, and again keeping the
last `n` entries is the same as keeping the last `n` entries of `a ++ b`. -/
theorem drop_last_append {α : Type} (a b : List α) (n : Nat) :
    (a.drop (a.length - n) ++ b).drop ((a.drop (a.length - n) ++ b).length - n)
      = (a ++ b).drop ((a ++ b).length - n) := by
  rw [List.drop_append_eq_append_drop, List.drop_append_eq_append_drop,
    List.drop_drop]
  have ha : a.drop ((a.length - n) +
        ((a.drop (a.length - n) ++ b).length - n))
      = a.drop ((a ++ b).length - n) := by
    apply drop_congr
    simp only [List.length_append, List.length_drop]
    omega
  have hb : b.drop (((a.drop (a.length - n) ++ b).length - n)
        - (a.drop (a.length - n)).length)
      = b.drop (((a ++ b).length - n) - a.length) := by
    apply drop_congr
    left
    simp only [List.length_append, List.length_drop]
    omega
  rw [ha, hb]

/-- After any `saveReview` the stored review array has at most `maxReviews`
entries. -/
theorem length_reviews_saveReview_le (store : FileStore) (repository : Str)
    (snapshot : ReviewSnapshot) :
    (loadData (saveReview store repository snapshot) repository).reviews.length
      ≤ maxReviews := by
  rw [reviews_saveReview]
  simp only [List.length_drop, List.length_append, List.length_singleton]
  simp only [maxReviews]
  omega

/-- Replaying a sequence of `saveReview` calls for one repository keeps
exactly the last `maxReviews` entries of the accumulated review sequence, in
insertion order. -/
theorem reviews_foldl_saveReview (repository : Str) (saves : List ReviewSnapshot)
    (store : FileStore)
    (h : (loadData store repository).reviews.length ≤ maxReviews) :
    (loadData (saves.foldl (fun st s => saveReview st repository s) store)
        repository).reviews
      = ((loadData store repository).reviews ++ saves).drop
          (((loadData store repository).reviews ++ saves).length - maxReviews) := by
  induction saves generalizing store with
  | nil =>
    simp only [List.foldl_nil, List.append_nil]
    rw [Nat.sub_eq_zero_of_le h, List.drop_zero]
  | cons s rest ih =>
    rw [List.foldl_cons]
    rw [ih (saveReview store repository s)
      (length_reviews_saveReview_le store repository s)]
    rw [reviews_saveReview]
    rw [drop_last_append ((loadData store repository).reviews ++ [s]) rest
      maxReviews]
    rw [List.append_assoc, List.singleton_append]

theorem loadData_nil (repository : Str) :
    loadData [] repository = emptyData repository := rfl

end FileStorage

/-- A snapshot for PR #1 carrying only a timestamp, used in concrete stores. -/
def snapAt (t : Nat) : ReviewSnapshot :=
  { timestamp := t
    prNumber := 1
    prTitle := []
    prAuthor := []
    filesChanged := 0
    reviewState := .UNKNOWN
    reviewText := []
    metrics :=
      { processingTime := 0
        issuesFound := { high := 0, medium := 0, low := 0 }
        rulesApplied := 0
        patternsDetected := 0 }
    codebunnyMentioned := false
    commentId := none }

/-- C2 counterexample: the File backend's `getReviewHistory` performs no sort.
Saving a snapshot with timestamp 2 and then one with timestamp 1 for the same
PR returns the history `[2, 1]` (insertion order), which is not ascending by
timestamp — refuting the claim that every backend returns snapshots sorted
ascending by timestamp even when they were saved in non-timestamp order. -/
theorem getReviewHistory_file_not_sorted_cex :
    (FileStorage.getReviewHistory
        (FileStorage.saveReview (FileStorage.saveReview [] [] (snapAt 2)) []
          (snapAt 1)) [] 1).map ReviewSnapshot.timestamp = [2, 1]
    ∧ ¬ ((FileStorage.getReviewHistory
        (FileStorage.saveReview (FileStorage.saveReview [] [] (snapAt 2)) []
          (snapAt 1)) [] 1).map ReviewSnapshot.timestamp).Sorted (· ≤ ·) := by
  decide

/-- C2 (amended): the Turso backend's `getReviewHistory` returns all persisted
rows for the (repository, PR) sorted ascending by timestamp, and the empty
sequence when none exist; the File backend's `getReviewHistory` returns the
snapshots saved for that PR in insertion (save) order — hence ascending by
timestamp only when the saves happened in timestamp order — and the empty
sequence when none exist. -/
theorem getReviewHistory_order_and_completeness
    (db : TursoDB) (repository : Str) (prNumber : Nat)
    (saves : List ReviewSnapshot)
    (h : saves.length ≤ FileStorage.maxReviews) :
    List.Pairwise (fun a b : ReviewSnapshot => a.timestamp ≤ b.timestamp)
        (TursoStorage.getReviewHistory db repository prNumber)
    ∧ (TursoStorage.getReviewHistory db repository prNumber).Perm
        ((db.filter (fun row =>
          decide (row.repository = repository ∧ row.snap.prNumber = prNumber))).map
            TursoRow.snap)
    ∧ FileStorage.getReviewHistory
          (saves.foldl (fun st s => FileStorage.saveReview st repository s) [])
          repository prNumber
        = saves.filter (fun r => decide (r.prNumber = prNumber))
    ∧ TursoStorage.getReviewHistory [] repository prNumber = []
    ∧ FileStorage.getReviewHistory [] repository prNumber = [] := by
  refine ⟨?_, ?_, ?_, ?_, ?_⟩
  · have htrans : ∀ a b c : ReviewSnapshot, TursoStorage.tsLe a b = true →
        TursoStorage.tsLe b c = true → TursoStorage.tsLe a c = true := by
      intro a b c
      simp only [TursoStorage.tsLe, decide_eq_true_eq]
      omega
    have htotal : ∀ a b : ReviewSnapshot,
        (TursoStorage.tsLe a b || TursoStorage.tsLe b a) = true := by
      intro a b
      simp only [TursoStorage.tsLe, Bool.or_eq_true, decide_eq_true_eq]
      omega
    have hs := List.sorted_mergeSort htrans htotal
      ((db.filter (fun row =>
        decide (row.repository = repository ∧ row.snap.prNumber = prNumber))).map
          TursoRow.snap)
    exact hs.imp (by
      intro a b hab
      simpa [TursoStorage.tsLe] using hab)
  · exact List.mergeSort_perm _ _
  · unfold FileStorage.getReviewHistory
    rw [FileStorage.reviews_foldl_saveReview repository saves []
      (by rw [FileStorage.loadData_nil]; simp [FileStorage.emptyData])]
    rw [FileStorage.loadData_nil]
    simp only [FileStorage.emptyData, List.nil_append]
    rw [Nat.sub_eq_zero_of_le h, List.drop_zero]
  · simp [TursoStorage.getReviewHistory]
  · rfl

/-- C2 witness: the amended history characterization evaluated at a singleton
save sequence. -/
theorem getReviewHistory_order_and_completeness_witness :
    ([snapAt 5].length ≤ FileStorage.maxReviews)
    ∧ (List.Pairwise (fun a b : ReviewSnapshot => a.timestamp ≤ b.timestamp)
        (TursoStorage.getReviewHistory [] [] 1)
    ∧ (TursoStorage.getReviewHistory [] [] 1).Perm
        ((([] : TursoDB).filter (fun row =>
          decide (row.repository = ([] : Str) ∧ row.snap.prNumber = 1))).map
            TursoRow.snap)
    ∧ FileStorage.getReviewHistory
          ([snapAt 5].foldl (fun st s => FileStorage.saveReview st [] s) [])
          [] 1
        = [snapAt 5].filter (fun r => decide (r.prNumber = 1))
    ∧ TursoStorage.getReviewHistory [] [] 1 = []
    ∧ FileStorage.getReviewHistory [] [] 1 = []) :=
  ⟨by decide, getReviewHistory_order_and_completeness [] [] 1 [snapAt 5] (by decide)⟩

set_option maxRecDepth 20000 in
/-- C3 counterexample: save 101 snapshots for one repository where the
highest-timestamped snapshot (timestamp 100) is saved first and timestamps
0..99 follow. The retained timestamps are 0..99: the evicted snapshot is the
NEWEST by timestamp (100), and the oldest (0) is retained — refuting the claim
that for every save order the retained set is the 100 most recent by
timestamp with the oldest-timestamped snapshot evicted. -/
theorem file_retention_evicts_first_saved_cex :
    ((FileStorage.loadData
        ((snapAt 100 :: (List.range 100).map snapAt).foldl
          (fun st s => FileStorage.saveReview st [] s) []) []).reviews.map
      ReviewSnapshot.timestamp) = List.range 100
    ∧ (100 : Nat) ∉ List.range 100 := by
  decide

/-- C3 (amended): starting from an empty store, saving 101 snapshots for one
repository leaves exactly 100 stored snapshots, and the retained sequence is
the last 100 snapshots in save (insertion) order — the first-saved snapshot is
the one evicted. It coincides with the 100 most recent by timestamp only when
the saves happen in ascending timestamp order. -/
theorem file_retention_keeps_last_100_saved
    (repository : Str) (saves : List ReviewSnapshot)
    (h : saves.length = 101) :
    ((FileStorage.loadData
        (saves.foldl (fun st s => FileStorage.saveReview st repository s) [])
        repository).reviews).length = 100
    ∧ (FileStorage.loadData
        (saves.foldl (fun st s => FileStorage.saveReview st repository s) [])
        repository).reviews = saves.drop 1 := by
  have hfold := FileStorage.reviews_foldl_saveReview repository saves []
    (by rw [FileStorage.loadData_nil]; simp [FileStorage.emptyData])
  rw [FileStorage.loadData_nil] at hfold
  simp only [FileStorage.emptyData, List.nil_append] at hfold
  rw [h] at hfold
  refine ⟨?_, ?_⟩
  · rw [hfold, List.length_drop, h]
    rfl
  · rw [hfold]
    rfl

/-- C3 witness: the amended retention theorem evaluated at the 101 snapshots
with timestamps 0..100 saved in ascending order. -/
theorem file_retention_keeps_last_100_saved_witness :
    ((List.range 101).map snapAt).length = 101
    ∧ (((FileStorage.loadData
        (((List.range 101).map snapAt).foldl
          (fun st s => FileStorage.saveReview st [] s) []) []).reviews).length = 100
    ∧ (FileStorage.loadData
        (((List.range 101).map snapAt).foldl
          (fun st s => FileStorage.saveReview st [] s) []) []).reviews
      = ((List.range 101).map snapAt).drop 1) :=
  ⟨by simp, file_retention_keeps_last_100_saved [] ((List.range 101).map snapAt)
    (by simp)⟩

/-! ## Approval transition counter (src/unnamed/part_002, lines 71-89) -/

/-- `snapshot.reviewState === 'MERGE'`: the approved/not-approved boolean used
by `countApprovalChanges`. -/
def isApproved (s : ReviewSnapshot) : Bool :=
  decide (s.reviewState = .MERGE)

/-- The `for` loop of `countApprovalChanges`: walk the remaining snapshots
with the running `previousApprovalState`, increment on each change and flip
the running state. -/
def countLoop (previousApprovalState : Bool) : List ReviewSnapshot → Nat
  | [] => 0
  | s :: rest =>
    let currentApprovalState := isApproved s
    if currentApprovalState ≠ previousApprovalState then
      1 + countLoop currentApprovalState rest
    else
      countLoop previousApprovalState rest

/-- `countApprovalChanges` (part_002 lines 71-89): 0 for fewer than two
snapshots, otherwise the loop seeded with the first snapshot's approval
state. -/
def countApprovalChanges (snapshots : List ReviewSnapshot) : Nat :=
  if snapshots.length < 2 then 0
  else
    match snapshots with
    | [] => 0
    | s :: rest => countLoop (isApproved s) rest

/-- Spec-side definition (from the spec's words): the number of adjacent pairs
of snapshots that cross the approved/not-approved boundary, where approved
means exactly the MERGE outcome. -/
def approvedBoundaryCrossings (snapshots : List ReviewSnapshot) : Nat :=
  ((snapshots.zip snapshots.tail).filter
    (fun p => decide (isApproved p.1 ≠ isApproved p.2))).length

theorem countLoop_eq_crossings :
    ∀ (t : List ReviewSnapshot) (s : ReviewSnapshot),
      countLoop (isApproved s) t =
        (((s :: t).zip t).filter
          (fun p => decide (isApproved p.1 ≠ isApproved p.2))).length := by
  intro t
  induction t with
  | nil => intro s; rfl
  | cons s2 rest ih =>
    intro s
    by_cases h : isApproved s2 = isApproved s
    · have hl : countLoop (isApproved s) (s2 :: rest) =
          countLoop (isApproved s) rest := by
        simp [countLoop, h]
      rw [hl, ← h, ih s2]
      have h2 : isApproved s = isApproved s2 := h.symm
      simp [List.zip_cons_cons, List.filter_cons, h2]
    · have hl : countLoop (isApproved s) (s2 :: rest) =
          1 + countLoop (isApproved s2) rest := by
        simp [countLoop, h]
      rw [hl, ih s2]
      have h2 : ¬ isApproved s = isApproved s2 := fun hh => h hh.symm
      simp only [List.zip_cons_cons, List.filter_cons, ne_eq, h2,
        not_false_eq_true, decide_True, if_true, List.length_cons]
      omega

/-- A snapshot with a given review outcome (all other fields default). -/
def stateSnap (st : ReviewState) : ReviewSnapshot :=
  { snapAt 0 with reviewState := st }

/-- C4: `countApprovalChanges` returns 0 for sequences of fewer than two
snapshots, and in general counts exactly the adjacent crossings of the
approved/not-approved boundary where approved means outcome MERGE. On the
outcome sequence [MERGE, DONT_MERGE, MERGE_AFTER_CHANGES, MERGE] it returns
exactly 2, and on [DONT_MERGE, MERGE_AFTER_CHANGES] it returns 0: a change
from DONT_MERGE directly to MERGE_AFTER_CHANGES never increments the count. -/
theorem countApprovalChanges_spec (snapshots : List ReviewSnapshot)
    (x : ReviewSnapshot) :
    countApprovalChanges snapshots = approvedBoundaryCrossings snapshots
    ∧ countApprovalChanges [] = 0
    ∧ countApprovalChanges [x] = 0
    ∧ countApprovalChanges
        [stateSnap .MERGE, stateSnap .DONT_MERGE,
          stateSnap .MERGE_AFTER_CHANGES, stateSnap .MERGE] = 2
    ∧ countApprovalChanges
        [stateSnap .DONT_MERGE, stateSnap .MERGE_AFTER_CHANGES] = 0 := by
  refine ⟨?_, rfl, rfl, by decide, by decide⟩
  match snapshots with
  | [] => rfl
  | [s] => rfl
  | s :: s2 :: rest =>
    unfold countApprovalChanges
    rw [if_neg (by simp)]
    exact countLoop_eq_crossings (s2 :: rest) s

/-! ## Historical validator (src/actions/codebunny/historical-validator.ts)

The validator is asynchronous only through `storage.getAllReviews`; its
analysis is pure. It is embedded as pure functions over the list of reviews
the backend returned. `Math.random() * 10` is modelled by a jitter assignment
`Nat → ℚ` giving each review (by its index) its drawn jitter; every theorem
quantifies over all jitter assignments in `[0, 10)` where it matters. -/

/-- `toLowerCase()`. -/
def toLowerStr (s : Str) : Str := s.map Char.toLower

/-- Accumulator-based splitting of a character list at whitespace characters,
modelling `split(/\s+/)` (empty fragments produced at whitespace runs are
removed downstream by the length filter, exactly as in the source). -/
def splitWsAux (acc : Str) : Str → List Str
  | [] => [acc.reverse]
  | c :: t =>
    if c.isWhitespace then acc.reverse :: splitWsAux [] t
    else splitWsAux (c :: acc) t

def splitWs (s : Str) : List Str := splitWsAux [] s

/-- `new Set(title.toLowerCase().split(/\s+/).filter(w => w.length > 3))`
(historical-validator.ts lines 106-111): the distinct title words longer than
3 characters. `List.dedup` keeps one copy per distinct word; only the set
membership and cardinality are consumed. -/
def titleWords (title : Str) : List Str :=
  ((splitWs (toLowerStr title)).filter (fun w => decide (3 < w.length))).dedup

/-- `commonWords.length / Math.max(currentWords.size, 1)`
(historical-validator.ts lines 113-114). -/
def titleSimilarity (currentTitle reviewTitle : Str) : ℚ :=
  (((titleWords currentTitle).filter
      (fun w => decide (w ∈ titleWords reviewTitle))).length : ℚ) /
    ((max (titleWords currentTitle).length 1 : Nat) : ℚ)

/-- The current PR argument of `validateAgainstHistory`
(`{ number, title, author, filesChanged }`). -/
structure CurrentPR where
  number : Nat
  title : Str
  author : Str
  filesChanged : List Str
deriving DecidableEq, Repr

/-- The similarity score of one historical review before the random jitter
(historical-validator.ts lines 98-115): +30 on author match plus the title
similarity scaled by 40. -/
def baseSimilarityScore (review : ReviewSnapshot) (currentPR : CurrentPR) : ℚ :=
  (if review.prAuthor = currentPR.author then 30 else 0)
    + titleSimilarity currentPR.title review.prTitle * 40

/-- JavaScript `Math.round`: round half up. -/
def jsRound (q : ℚ) : ℤ := ⌊q + 1 / 2⌋

/-- One entry of `ValidationInsights.similarPRs`. -/
structure SimilarPR where
  prNumber : Nat
  prTitle : Str
  reviewState : ReviewState
  similarity : ℤ
deriving DecidableEq, Repr

/-- The `similarities` array (historical-validator.ts lines 97-126): one scored
entry per review, `similarity: Math.round(score)` with
`score = base + Math.random() * 10`. -/
def scoredPRs (reviews : List ReviewSnapshot) (currentPR : CurrentPR)
    (jitter : Nat → ℚ) : List SimilarPR :=
  reviews.enum.map (fun p =>
    { prNumber := p.2.prNumber
      prTitle := p.2.prTitle
      reviewState := p.2.reviewState
      similarity := jsRound (baseSimilarityScore p.2 currentPR + jitter p.1) })

/-- The comparator `(a, b) => b.similarity - a.similarity` (descending). -/
def simDesc (a b : SimilarPR) : Bool := decide (b.similarity ≤ a.similarity)

/-- `findSimilarPRs` result (historical-validator.ts lines 128-133):
sort descending, `slice(0, 5)`, then `filter(s => s.similarity > 20)`. -/
def findSimilarPRs (reviews : List ReviewSnapshot) (currentPR : CurrentPR)
    (jitter : Nat → ℚ) : List SimilarPR :=
  (((scoredPRs reviews currentPR jitter).mergeSort simDesc).take 5).filter
    (fun s => decide (20 < s.similarity))

/-- Issue priorities of the patterns table. -/
inductive Priority
  | high
  | medium
  | low
deriving DecidableEq, Repr

/-- The fixed `patterns` vocabulary (historical-validator.ts lines 148-157). -/
def issuePatterns : List (Str × Priority) :=
  [("security".toList, .high),
   ("vulnerability".toList, .high),
   ("memory leak".toList, .high),
   ("performance".toList, .medium),
   ("test".toList, .medium),
   ("documentation".toList, .low),
   ("type error".toList, .medium),
   ("error handling".toList, .medium)]

/-- JavaScript `text.includes(keyword)`: `needle` occurs as a contiguous
substring of the haystack. -/
def hasSubstr (needle : Str) : Str → Bool
  | [] => needle.isEmpty
  | c :: t => needle.isPrefixOf (c :: t) || hasSubstr needle t

/-- The per-keyword accumulator `{ count, highPriority }`. -/
structure IssueData where
  count : Nat
  highPriority : Nat
deriving DecidableEq, Repr

/-- One iteration of the pattern loop body for a matched keyword
(historical-validator.ts lines 160-168): create the entry on first sight,
increment `count`, and increment `highPriority` when the preset priority is
high. -/
def bumpIssue : List (Str × IssueData) → Str → Priority → List (Str × IssueData)
  | [], kw, p =>
    [(kw, { count := 1, highPriority := if p = .high then 1 else 0 })]
  | (k, d) :: rest, kw, p =>
    if k = kw then
      (k, { count := d.count + 1
            highPriority := d.highPriority + (if p = .high then 1 else 0) }) :: rest
    else (k, d) :: bumpIssue rest kw p

/-- Scan one review text against every pattern
(historical-validator.ts lines 143-170). -/
def scanReview (m : List (Str × IssueData)) (review : ReviewSnapshot) :
    List (Str × IssueData) :=
  issuePatterns.foldl
    (fun m p =>
      if hasSubstr p.1 (toLowerStr review.reviewText) then bumpIssue m p.1 p.2
      else m)
    m

/-- One entry of `ValidationInsights.commonIssues`. -/
structure CommonIssue where
  issue : Str
  frequency : Nat
  priority : Priority
deriving DecidableEq, Repr

/-- Comparator `(a, b) => b.frequency - a.frequency`. -/
def freqDesc (a b : CommonIssue) : Bool := decide (b.frequency ≤ a.frequency)

/-- `identifyCommonIssues` (historical-validator.ts lines 138-181): accumulate
the keyword map over all reviews, convert each entry with priority
`highPriority > count / 2 ? high : medium` (the JavaScript comparison against
the real-valued `count / 2` gives the same boolean as the Nat floor division
used here), sort by frequency descending, keep the top 10. -/
def identifyCommonIssues (reviews : List ReviewSnapshot) : List CommonIssue :=
  (((reviews.foldl scanReview []).map (fun e =>
      { issue := e.1
        frequency := e.2.count
        priority :=
          if e.2.count / 2 < e.2.highPriority then Priority.high
          else Priority.medium })).mergeSort freqDesc).take 10

/-- The `approvalPatterns` record. -/
structure ApprovalPatterns where
  authorApprovalRate : ℚ
  similarFilesApprovalRate : ℚ
  avgTimeToApproval : Option ℚ
deriving DecidableEq, Repr

/-- `analyzeApprovalPatterns` (historical-validator.ts lines 186-211):
author approval rate, repository-wide approval rate, and the intentionally
unimplemented `avgTimeToApproval = null`. -/
def analyzeApprovalPatterns (reviews : List ReviewSnapshot)
    (currentPR : CurrentPR) : ApprovalPatterns :=
  let authorReviews := reviews.filter (fun r => decide (r.prAuthor = currentPR.author))
  let authorApprovals :=
    (authorReviews.filter (fun r => decide (r.reviewState = .MERGE))).length
  let totalApprovals :=
    (reviews.filter (fun r => decide (r.reviewState = .MERGE))).length
  { authorApprovalRate :=
      if 0 < authorReviews.length then
        (authorApprovals : ℚ) / (authorReviews.length : ℚ)
      else 0
    similarFilesApprovalRate :=
      if 0 < reviews.length then (totalApprovals : ℚ) / (reviews.length : ℚ)
      else 0
    avgTimeToApproval := none }

/-- Decimal rendering used for the interpolated numbers of the
recommendation strings. -/
def natToStr (n : Nat) : Str := Nat.toDigits 10 n

/-- `generateRecommendations` (historical-validator.ts lines 216-269),
with the template strings interpolated exactly as in the source. -/
def generateRecommendations (similarPRs : List SimilarPR)
    (commonIssues : List CommonIssue) (approvalPatterns : ApprovalPatterns) :
    List Str :=
  let fromSimilar :=
    if 0 < similarPRs.length then
      (let approvedCount :=
        (similarPRs.filter (fun pr => decide (pr.reviewState = .MERGE))).length
      let rejectedCount :=
        (similarPRs.filter (fun pr => decide (pr.reviewState = .DONT_MERGE))).length
      (if approvedCount < rejectedCount then
        [("⚠️ Similar PRs have had approval challenges. Pay extra attention to common patterns.").toList]
      else []) ++
      (if 3 ≤ similarPRs.length then
        [("📊 Found ").toList ++ natToStr similarPRs.length ++
          (" similar PRs in history. Review their feedback for patterns.").toList]
      else []))
    else []
  let fromIssues :=
    if 0 < commonIssues.length then
      (("🔍 Common issues in this codebase: ").toList ++
        List.intercalate (", ").toList ((commonIssues.take 3).map CommonIssue.issue)) ::
      (let highPriorityIssues :=
        commonIssues.filter (fun i => decide (i.priority = Priority.high))
      if 0 < highPriorityIssues.length then
        [("⚠️ High-priority issues frequently found: ").toList ++
          List.intercalate (", ").toList (highPriorityIssues.map CommonIssue.issue)]
      else [])
    else []
  let fromApproval :=
    if approvalPatterns.authorApprovalRate < 1 / 2 ∧
        0 < approvalPatterns.authorApprovalRate then
      [("📉 Author has ").toList ++
        natToStr (jsRound (approvalPatterns.authorApprovalRate * 100)).toNat ++
        ("% approval rate. Consider extra scrutiny.").toList]
    else if 4 / 5 < approvalPatterns.authorApprovalRate then
      [("✅ Author has strong track record (").toList ++
        natToStr (jsRound (approvalPatterns.authorApprovalRate * 100)).toNat ++
        ("% approval rate).").toList]
    else []
  fromSimilar ++ fromIssues ++ fromApproval

/-- `ValidationInsights` (historical-validator.ts lines 15-33). -/
structure ValidationInsights where
  similarPRs : List SimilarPR
  commonIssues : List CommonIssue
  approvalPatterns : ApprovalPatterns
  recommendations : List Str
deriving DecidableEq, Repr

/-- `getEmptyInsights` (historical-validator.ts lines 274-287). -/
def getEmptyInsights : ValidationInsights :=
  { similarPRs := []
    commonIssues := []
    approvalPatterns :=
      { authorApprovalRate := 0
        similarFilesApprovalRate := 0
        avgTimeToApproval := none }
    recommendations :=
      [("📝 This is the first review for this repository. Building historical baseline...").toList] }

/-- `validateAgainstHistory` (historical-validator.ts lines 38-88) after the
backend returned `allReviews`: the cold-start branch returns the empty
insights, otherwise the four analyses are combined. -/
def validateAgainstHistory (allReviews : List ReviewSnapshot)
    (currentPR : CurrentPR) (jitter : Nat → ℚ) : ValidationInsights :=
  if allReviews.length = 0 then getEmptyInsights
  else
    let similarPRs := findSimilarPRs allReviews currentPR jitter
    let commonIssues := identifyCommonIssues allReviews
    let approvalPatterns := analyzeApprovalPatterns allReviews currentPR
    { similarPRs := similarPRs
      commonIssues := commonIssues
      approvalPatterns := approvalPatterns
      recommendations :=
        generateRecommendations similarPRs commonIssues approvalPatterns }

/-! ## Bounds of the similarity score -/

theorem titleSimilarity_nonneg (c r : Str) : 0 ≤ titleSimilarity c r := by
  unfold titleSimilarity
  exact div_nonneg (Nat.cast_nonneg _) (Nat.cast_nonneg _)

theorem titleSimilarity_le_one (c r : Str) : titleSimilarity c r ≤ 1 := by
  unfold titleSimilarity
  have hpos : (0 : ℚ) < ((max (titleWords c).length 1 : Nat) : ℚ) :=
    Nat.cast_pos.mpr (Nat.lt_of_lt_of_le Nat.zero_lt_one
      (le_max_right (titleWords c).length 1))
  rw [div_le_one hpos]
  exact Nat.cast_le.mpr (le_trans (List.length_filter_le _ _)
    (le_max_left (titleWords c).length 1))

/-- C5: within any jitter draw in [0, 10): when the historical author equals
the current author the score before jitter is at least 30 (whatever the
titles, even with zero common words); when the authors differ the full
jittered score is at most 40 plus the jitter, and the jitter is strictly
below 10 — the author bonus is out of reach. -/
theorem similarity_score_bounds (review : ReviewSnapshot)
    (currentPR : CurrentPR) (jitter : ℚ) (_h0 : 0 ≤ jitter) (h10 : jitter < 10) :
    (review.prAuthor = currentPR.author →
      30 ≤ baseSimilarityScore review currentPR)
    ∧ (review.prAuthor ≠ currentPR.author →
      baseSimilarityScore review currentPR + jitter ≤ 40 + jitter
        ∧ jitter < 10) := by
  constructor
  · intro h
    unfold baseSimilarityScore
    rw [if_pos h]
    have ht := titleSimilarity_nonneg currentPR.title review.prTitle
    linarith
  · intro h
    refine ⟨?_, h10⟩
    unfold baseSimilarityScore
    rw [if_neg h]
    have ht := titleSimilarity_le_one currentPR.title review.prTitle
    linarith

/-- C5 witness: the score bounds evaluated at a concrete historical review,
current PR and jitter 5. -/
theorem similarity_score_bounds_witness :
    ((0 : ℚ) ≤ 5 ∧ (5 : ℚ) < 10)
    ∧ (((stateSnap .MERGE).prAuthor = (CurrentPR.mk 1 [] [] []).author →
        30 ≤ baseSimilarityScore (stateSnap .MERGE) (CurrentPR.mk 1 [] [] []))
    ∧ ((stateSnap .MERGE).prAuthor ≠ (CurrentPR.mk 1 [] [] []).author →
        baseSimilarityScore (stateSnap .MERGE) (CurrentPR.mk 1 [] [] []) + 5
            ≤ 40 + 5
          ∧ (5 : ℚ) < 10)) :=
  ⟨⟨by norm_num, by norm_num⟩,
    similarity_score_bounds (stateSnap .MERGE) (CurrentPR.mk 1 [] [] []) 5
      (by norm_num) (by norm_num)⟩

/-! ## The 20-point threshold of findSimilarPRs -/

/-- The historical review of the C6 counterexample: a different author whose
title shares one of the two long words of the current title. -/
def cexReview : ReviewSnapshot :=
  { snapAt 0 with
      prNumber := 9
      prTitle := ("alpha").toList
      prAuthor := ("bob").toList }

/-- The current PR of the C6 counterexample. -/
def cexCurrentPR : CurrentPR :=
  { number := 7
    title := ("alpha beta").toList
    author := ("alice").toList
    filesChanged := [] }

/-- C6 counterexample: with differing authors, half the title words shared
(similarity 1/2 · 40 = 20) and jitter 0, the single candidate scores exactly
20 — and `filter(s => s.similarity > 20)` DISCARDS it, returning the empty
list, refuting the claim that an entry scoring exactly 20 is retained. -/
theorem findSimilarPRs_exact_20_discarded_cex :
    findSimilarPRs [cexReview] cexCurrentPR (fun _ => 0) = [] := by
  have hnum : ((titleWords cexCurrentPR.title).filter
      (fun w => decide (w ∈ titleWords cexReview.prTitle))).length = 1 := by
    decide
  have hden : max (titleWords cexCurrentPR.title).length 1 = 2 := by
    decide
  have hsim : titleSimilarity cexCurrentPR.title cexReview.prTitle = 1 / 2 := by
    unfold titleSimilarity
    rw [hnum, hden]
    norm_num
  have hbase : baseSimilarityScore cexReview cexCurrentPR = 20 := by
    unfold baseSimilarityScore
    rw [if_neg (by decide), hsim]
    norm_num
  have hround : jsRound (baseSimilarityScore cexReview cexCurrentPR + 0) = 20 := by
    rw [hbase]
    unfold jsRound
    norm_num
  have hscored : scoredPRs [cexReview] cexCurrentPR (fun _ => 0) =
      [{ prNumber := 9
         prTitle := ("alpha").toList
         reviewState := .UNKNOWN
         similarity := 20 }] := by
    unfold scoredPRs
    simp only [List.enum, List.enumFrom, List.map_cons, List.map_nil]
    rw [hround]
    rfl
  unfold findSimilarPRs
  rw [hscored, List.mergeSort_singleton]
  decide

/-- The sort order produced by `mergeSort simDesc` is transitive. -/
theorem simDesc_trans (a b c : SimilarPR) (h1 : simDesc a b = true)
    (h2 : simDesc b c = true) : simDesc a c = true := by
  simp only [simDesc, decide_eq_true_eq] at *
  omega

/-- The sort order produced by `mergeSort simDesc` is total. -/
theorem simDesc_total (a b : SimilarPR) : (simDesc a b || simDesc b a) = true := by
  simp only [simDesc, Bool.or_eq_true, decide_eq_true_eq]
  omega

/-- On a list sorted descending, filtering by a threshold that is upward
closed along the sort order commutes with `take n`. -/
theorem filter_take_of_sorted {α : Type} (p : α → Bool) (le : α → α → Bool)
    (hmono : ∀ a b, le a b = true → p b = true → p a = true) :
    ∀ (l : List α), l.Pairwise (fun a b => le a b = true) →
      ∀ n, (l.take n).filter p = (l.filter p).take n := by
  intro l
  induction l with
  | nil => intro _ n; simp
  | cons x t ih =>
    intro hpw n
    rw [List.pairwise_cons] at hpw
    obtain ⟨hx, ht⟩ := hpw
    match n with
    | 0 => simp
    | n + 1 =>
      rw [List.take_succ_cons, List.filter_cons, List.filter_cons]
      by_cases hp : p x = true
      · rw [if_pos hp, if_pos hp, List.take_succ_cons, ih ht n]
      · rw [if_neg hp, if_neg hp]
        have hnil : t.filter p = [] := by
          rw [List.filter_eq_nil_iff]
          intro a ha hpa
          exact hp (hmono x a (hx a ha) hpa)
        have hnil2 : (t.take n).filter p = [] := by
          rw [List.filter_eq_nil_iff]
          intro a ha hpa
          exact hp (hmono x a (hx a ((List.take_sublist n t).mem ha)) hpa)
        rw [hnil, hnil2, List.take_nil]

/-- C6 (amended): `findSimilarPRs` retains exactly the scored entries whose
similarity is strictly greater than 20 (an entry scoring exactly 20 is
discarded), sorted descending by similarity and truncated to at most 5:
slicing the descending sort to 5 and then filtering equals filtering the
descending sort and then slicing to 5. -/
theorem findSimilarPRs_spec (reviews : List ReviewSnapshot)
    (currentPR : CurrentPR) (jitter : Nat → ℚ) :
    List.Pairwise (fun a b : SimilarPR => b.similarity ≤ a.similarity)
        (findSimilarPRs reviews currentPR jitter)
    ∧ (findSimilarPRs reviews currentPR jitter).length ≤ 5
    ∧ findSimilarPRs reviews currentPR jitter
        = (((scoredPRs reviews currentPR jitter).mergeSort simDesc).filter
            (fun s => decide (20 < s.similarity))).take 5 := by
  have hsorted := List.sorted_mergeSort simDesc_trans simDesc_total
    (scoredPRs reviews currentPR jitter)
  refine ⟨?_, ?_, ?_⟩
  · have hsub : (findSimilarPRs reviews currentPR jitter).Sublist
        ((scoredPRs reviews currentPR jitter).mergeSort simDesc) :=
      (List.filter_sublist _).trans (List.take_sublist _ _)
    exact ((List.Pairwise.sublist hsub hsorted).imp
      (by intro a b hab; simpa [simDesc] using hab))
  · exact le_trans (List.Sublist.length_le (List.filter_sublist _))
      (List.length_take_le _ _)
  · unfold findSimilarPRs
    exact filter_take_of_sorted _ simDesc
      (by
        intro a b hab hpb
        simp only [simDesc, decide_eq_true_eq] at hab
        simp only [decide_eq_true_eq] at *
        omega)
      _ hsorted 5

/-- C7: when the backend reports zero historical reviews the validator
returns the empty-insights value — empty similarPRs, empty commonIssues,
zeroed approval rates with null time-to-approval, and exactly one
recommendation string (the building-baseline message) — as a normal return. -/
theorem validateAgainstHistory_cold_start (currentPR : CurrentPR)
    (jitter : Nat → ℚ) :
    validateAgainstHistory [] currentPR jitter = getEmptyInsights
    ∧ (validateAgainstHistory [] currentPR jitter).similarPRs = []
    ∧ (validateAgainstHistory [] currentPR jitter).commonIssues = []
    ∧ (validateAgainstHistory [] currentPR jitter).approvalPatterns =
        { authorApprovalRate := 0
          similarFilesApprovalRate := 0
          avgTimeToApproval := none }
    ∧ (validateAgainstHistory [] currentPR jitter).recommendations.length = 1 :=
  ⟨rfl, rfl, rfl, rfl, rfl⟩

/-! ## Priorities reported by identifyCommonIssues -/

/-- `bumpIssue` keeps the `highPriority` counter of the `documentation` entry
at 0 as long as the bump for the documentation keyword never carries the high
priority. -/
theorem bumpIssue_doc_hp (kw : Str) (p : Priority)
    (hkw : kw = ("documentation").toList → p ≠ Priority.high) :
    ∀ (m : List (Str × IssueData)),
      (∀ e ∈ m, e.1 = ("documentation").toList → e.2.highPriority = 0) →
      ∀ e ∈ bumpIssue m kw p,
        e.1 = ("documentation").toList → e.2.highPriority = 0 := by
  intro m
  induction m with
  | nil =>
    intro _ e he hdoc
    simp only [bumpIssue, List.mem_singleton] at he
    subst he
    simp only at hdoc
    show (if p = Priority.high then 1 else 0) = 0
    rw [if_neg (hkw hdoc)]
  | cons hd tl ih =>
    obtain ⟨k, d⟩ := hd
    intro hm e he hdoc
    by_cases hk : k = kw
    · simp only [bumpIssue, if_pos hk] at he
      rcases List.mem_cons.mp he with he | he
      · subst he
        simp only at hdoc
        have hkdoc : kw = ("documentation").toList := hk ▸ hdoc
        have hd0 : d.highPriority = 0 :=
          hm (k, d) (List.mem_cons_self _ _) hdoc
        show d.highPriority + (if p = Priority.high then 1 else 0) = 0
        rw [if_neg (hkw hkdoc), hd0]
      · exact hm e (List.mem_cons_of_mem _ he) hdoc
    · simp only [bumpIssue, if_neg hk] at he
      rcases List.mem_cons.mp he with he | he
      · subst he
        exact hm (k, d) (List.mem_cons_self _ _) hdoc
      · exact ih (fun x hx => hm x (List.mem_cons_of_mem _ hx)) e he hdoc

/-- The pattern loop of `identifyCommonIssues` preserves the zero
`highPriority` counter of the `documentation` entry, for any pattern table in
which the documentation keyword is not tagged high. -/
theorem foldPatterns_doc_hp (text : Str) :
    ∀ (ps : List (Str × Priority)),
      (∀ q ∈ ps, q.1 = ("documentation").toList → q.2 ≠ Priority.high) →
      ∀ (m : List (Str × IssueData)),
        (∀ e ∈ m, e.1 = ("documentation").toList → e.2.highPriority = 0) →
        ∀ e ∈ ps.foldl
            (fun m p => if hasSubstr p.1 text then bumpIssue m p.1 p.2 else m) m,
          e.1 = ("documentation").toList → e.2.highPriority = 0 := by
  intro ps
  induction ps with
  | nil =>
    intro _ m hm e he
    exact hm e he
  | cons q qs ih =>
    intro hq m hm
    rw [List.foldl_cons]
    apply ih (fun x hx => hq x (List.mem_cons_of_mem _ hx))
    by_cases hs : hasSubstr q.1 text = true
    · rw [if_pos hs]
      exact bumpIssue_doc_hp q.1 q.2 (hq q (List.mem_cons_self _ _)) m hm
    · rw [if_neg hs]
      exact hm

/-- Accumulating the keyword map over any review list keeps the
`documentation` entry's `highPriority` counter at 0. -/
theorem foldReviews_doc_hp :
    ∀ (reviews : List ReviewSnapshot) (m : List (Str × IssueData)),
      (∀ e ∈ m, e.1 = ("documentation").toList → e.2.highPriority = 0) →
      ∀ e ∈ reviews.foldl scanReview m,
        e.1 = ("documentation").toList → e.2.highPriority = 0 := by
  intro reviews
  induction reviews with
  | nil =>
    intro m hm e he
    exact hm e he
  | cons r rest ih =>
    intro m hm
    rw [List.foldl_cons]
    apply ih
    exact foldPatterns_doc_hp (toLowerStr r.reviewText) issuePatterns
      (by decide) m hm

/-- C10: every entry returned by `identifyCommonIssues` has priority high or
medium — the preset low priority is never reported — and the entry for the
`documentation` keyword (whose preset priority is low) always comes out
medium. -/
theorem commonIssues_priority (reviews : List ReviewSnapshot) (e : CommonIssue)
    (he : e ∈ identifyCommonIssues reviews) :
    (e.priority = Priority.high ∨ e.priority = Priority.medium)
    ∧ (e.issue = ("documentation").toList → e.priority = Priority.medium) := by
  unfold identifyCommonIssues at he
  have h1 := (List.mergeSort_perm _ freqDesc).mem_iff.mp
    ((List.take_sublist 10 _).mem he)
  obtain ⟨entry, hmem, heq⟩ := List.mem_map.mp h1
  constructor
  · rw [← heq]
    by_cases hc : entry.2.count / 2 < entry.2.highPriority
    · left
      simp [hc]
    · right
      simp [hc]
  · intro hdoc
    rw [← heq] at hdoc
    simp only at hdoc
    have hp0 : entry.2.highPriority = 0 :=
      foldReviews_doc_hp reviews [] (by simp) entry hmem hdoc
    rw [← heq]
    simp [hp0]

/-- The concrete review of the C10 witness: its text is the word
documentation itself. -/
def docReview : ReviewSnapshot :=
  { snapAt 0 with reviewText := ("documentation").toList }

/-- C10 witness: the priority property evaluated on a one-review history whose
text mentions documentation; the reported entry is medium. -/
theorem commonIssues_priority_witness :
    (({ issue := ("documentation").toList
        frequency := 1
        priority := Priority.medium } : CommonIssue).priority = Priority.high
      ∨ ({ issue := ("documentation").toList
           frequency := 1
           priority := Priority.medium } : CommonIssue).priority = Priority.medium)
    ∧ (({ issue := ("documentation").toList
          frequency := 1
          priority := Priority.medium } : CommonIssue).issue
            = ("documentation").toList →
        ({ issue := ("documentation").toList
           frequency := 1
           priority := Priority.medium } : CommonIssue).priority
          = Priority.medium) := by
  have hscan : ([docReview].foldl scanReview []) =
      [(("documentation").toList, { count := 1, highPriority := 0 })] := by
    decide
  have hval : identifyCommonIssues [docReview] =
      [{ issue := ("documentation").toList
         frequency := 1
         priority := Priority.medium }] := by
    unfold identifyCommonIssues
    rw [hscan]
    simp only [List.map_cons, List.map_nil]
    rw [List.mergeSort_singleton]
    rfl
  exact commonIssues_priority [docReview] _ (by
    rw [hval]
    exact List.mem_singleton.mpr rfl)

/-! ## Migration routine (src/unnamed/part_009, migrateFromFileStorage)

The file-system interaction of the routine is abstracted into a
`MigrationInput`: whether `fs.access` finds the File document, and the result
of `readFile` + `JSON.parse` (`none` models either call throwing, which the
routine's outer catch turns into a plain warning). A per-record success
predicate `saveOk` models which `storage.saveReview` calls throw; a throwing
save is caught by the inner catch and skipped. The rename to `.backup` is
modelled by the `renamed` flag of the result. -/

/-- The file-system facts the migration routine observes. -/
structure MigrationInput where
  fileExists : Bool
  parsed : Option (List (Str × List ReviewSnapshot))
deriving DecidableEq, Repr

/-- Outcome of a migration run: final target database, `migratedCount`, and
whether the original document was renamed to its `.backup` path. -/
structure MigrationResult where
  db : TursoDB
  migratedCount : Nat
  renamed : Bool
deriving DecidableEq, Repr

/-- The inner `for (const review of reviews)` loop: try `saveReview`, count
the success, and on failure log and continue with the next record. -/
def migrateReviews (saveOk : Str → ReviewSnapshot → Bool) (repository : Str) :
    TursoDB → List ReviewSnapshot → TursoDB × Nat
  | db, [] => (db, 0)
  | db, r :: rest =>
    if saveOk repository r then
      let next := migrateReviews saveOk repository
        (TursoStorage.saveReview db repository r) rest
      (next.1, next.2 + 1)
    else
      migrateReviews saveOk repository db rest

/-- The outer `for (const [repository, data] of Object.entries(fileData))`
loop. -/
def migrateRepos (saveOk : Str → ReviewSnapshot → Bool) :
    TursoDB → List (Str × List ReviewSnapshot) → TursoDB × Nat
  | db, [] => (db, 0)
  | db, (repository, reviews) :: rest =>
    let step := migrateReviews saveOk repository db reviews
    let next := migrateRepos saveOk step.1 rest
    (next.1, step.2 + next.2)

/-- `migrateFromFileStorage` (part_009 lines 197-239): return silently when
the File document does not exist; when reading or parsing it throws, the
outer catch logs a warning and nothing is renamed; otherwise replay every
repository's review array and only then rename the document to `.backup`. -/
def migrateFromFileStorage (db : TursoDB) (inp : MigrationInput)
    (saveOk : Str → ReviewSnapshot → Bool) : MigrationResult :=
  if ¬ inp.fileExists then { db := db, migratedCount := 0, renamed := false }
  else
    match inp.parsed with
    | none => { db := db, migratedCount := 0, renamed := false }
    | some fileData =>
      let res := migrateRepos saveOk db fileData
      { db := res.1, migratedCount := res.2, renamed := true }

/-- Spec-side description of the replayed records: for every repository in
document order, the rows of the reviews whose save succeeds, in order. -/
def successRows (saveOk : Str → ReviewSnapshot → Bool)
    (fileData : List (Str × List ReviewSnapshot)) : List TursoRow :=
  fileData.flatMap (fun e =>
    (e.2.filter (fun r => saveOk e.1 r)).map
      (fun r => { repository := e.1, snap := r }))

/-- Spec-side description of the rows a whole migration run appends. -/
def migrationRows (inp : MigrationInput)
    (saveOk : Str → ReviewSnapshot → Bool) : List TursoRow :=
  if inp.fileExists then
    match inp.parsed with
    | some fileData => successRows saveOk fileData
    | none => []
  else []

theorem migrateReviews_spec (saveOk : Str → ReviewSnapshot → Bool)
    (repository : Str) :
    ∀ (reviews : List ReviewSnapshot) (db : TursoDB),
      migrateReviews saveOk repository db reviews =
        (db ++ (reviews.filter (fun r => saveOk repository r)).map
            (fun r => { repository := repository, snap := r }),
          (reviews.filter (fun r => saveOk repository r)).length) := by
  intro reviews
  induction reviews with
  | nil =>
    intro db
    simp [migrateReviews]
  | cons r rest ih =>
    intro db
    by_cases h : saveOk repository r = true
    · simp [migrateReviews, if_pos h, ih, TursoStorage.saveReview,
        List.filter_cons, h]
    · simp [migrateReviews, if_neg h, ih, List.filter_cons, h]

theorem migrateRepos_spec (saveOk : Str → ReviewSnapshot → Bool) :
    ∀ (fileData : List (Str × List ReviewSnapshot)) (db : TursoDB),
      migrateRepos saveOk db fileData =
        (db ++ successRows saveOk fileData,
          (successRows saveOk fileData).length) := by
  intro fileData
  induction fileData with
  | nil =>
    intro db
    simp [migrateRepos, successRows]
  | cons e rest ih =>
    intro db
    obtain ⟨repository, reviews⟩ := e
    simp only [migrateRepos, migrateReviews_spec, ih, successRows,
      List.flatMap_cons, List.append_assoc, List.length_append,
      List.length_map]

/-- C8: the migration routine replays every repository's review array through
the target backend's `saveReview`, skipping (not aborting on) each record
whose save fails: it appends exactly the successful records in document
order, counts them, and sets the `.backup` rename exactly when the File
document existed and the full replay pass completed (i.e. the document was
read and parsed); when the pass aborts before the replay (unreadable or
unparsable document) nothing is renamed and nothing is migrated. -/
theorem migrateFromFileStorage_spec (db : TursoDB) (inp : MigrationInput)
    (saveOk : Str → ReviewSnapshot → Bool) :
    (migrateFromFileStorage db inp saveOk).renamed
        = (inp.fileExists && inp.parsed.isSome)
    ∧ (migrateFromFileStorage db inp saveOk).db
        = db ++ migrationRows inp saveOk
    ∧ (migrateFromFileStorage db inp saveOk).migratedCount
        = (migrationRows inp saveOk).length := by
  obtain ⟨fileExists, parsed⟩ := inp
  match fileExists, parsed with
  | false, parsed =>
    simp [migrateFromFileStorage, migrationRows]
  | true, none =>
    simp [migrateFromFileStorage, migrationRows]
  | true, some fileData =>
    simp [migrateFromFileStorage, migrationRows, migrateRepos_spec]

/-! ## Storage factory (src/actions/codebunny/storage-factory.ts, turso-setup)

The factory's effectful steps are embedded in the `Except Str` monad:
throwing JavaScript code becomes `Except.error`. Failure of
`storage.initialize()` and the `healthCheck()` outcome are injected through a
`TursoEnv` record (they depend on the outside world); `validateTursoConfig`
is pure in the source and embedded directly; `migrateFromFileStorage`
catches all its own errors and therefore never contributes an `error`.
Environment variables are `Option Str` (`none` = unset). -/

/-- The three operating modes of turso-setup (part_009). -/
inductive TursoMode
  | localOnly
  | synced
  | remote
deriving DecidableEq, Repr

/-- `TursoSetupConfig` (part_009 lines 21-25). -/
structure TursoSetupConfig where
  mode : TursoMode
  url : Option Str
  authToken : Option Str
deriving DecidableEq, Repr

/-- `validateTursoConfig` (part_009 lines 30-58): no configuration at all
gives `null` (File storage will be used); a `libsql://` URL without an auth
token gives `null` after a warning; a `libsql://` URL with a token selects
synced mode; anything else selects local-only mode. -/
def validateTursoConfig (tursoUrl tursoAuthToken : Option Str) :
    Option TursoSetupConfig :=
  if tursoUrl = none ∧ tursoAuthToken = none then none
  else
    match tursoUrl with
    | some u =>
      if ("libsql://").toList.isPrefixOf u then
        match tursoAuthToken with
        | none => none
        | some t => some { mode := .synced, url := some u, authToken := some t }
      else some { mode := .localOnly, url := none, authToken := none }
    | none => some { mode := .localOnly, url := none, authToken := none }

/-- Which backend handle `createStorage` ends up with. -/
inductive StorageChoice
  | file
  | tursoLocal
  | tursoSynced (url authToken : Str)
  | tursoRemote (url authToken : Str)
deriving DecidableEq, Repr

/-- Outside-world outcomes of the Turso initialization steps. -/
structure TursoEnv where
  initFails : Bool
  healthOk : Bool
deriving DecidableEq, Repr

/-- `initializeTursoStorage` (part_009 lines 63-105): select the storage for
the mode (synced and remote modes require both url and auth token or throw),
run `storage.initialize()` (throws when the backing client or tables cannot
be set up), then `healthCheck()` and throw when unhealthy. -/
def initTursoStorage (config : TursoSetupConfig) (env : TursoEnv) :
    Except Str StorageChoice :=
  (match config.mode with
    | .localOnly => Except.ok StorageChoice.tursoLocal
    | .synced =>
      match config.url, config.authToken with
      | some u, some t => Except.ok (StorageChoice.tursoSynced u t)
      | _, _ => Except.error ("Synced mode requires both url and authToken").toList
    | .remote =>
      match config.url, config.authToken with
      | some u, some t => Except.ok (StorageChoice.tursoRemote u t)
      | _, _ => Except.error ("Remote mode requires both url and authToken").toList)
    >>= fun storage =>
      if env.initFails then
        Except.error ("Failed to init Turso storage").toList
      else if ¬ env.healthOk then
        Except.error ("Turso storage health check failed").toList
      else Except.ok storage

/-- The body of the factory's `try` block (storage-factory.ts lines 43-67):
validate the configuration; with a configuration, run
`initializeTursoStorage` and then the migration; with none, build the
local-only storage, run `storage.initialize()` (same failure injection) and
then the migration. The migration result rides along in the ok value since
`migrateFromFileStorage` never throws. -/
def tursoAttempt (tursoUrl tursoAuthToken : Option Str) (env : TursoEnv)
    (db : TursoDB) (inp : MigrationInput)
    (saveOk : Str → ReviewSnapshot → Bool) :
    Except Str (StorageChoice × MigrationResult) :=
  match validateTursoConfig tursoUrl tursoAuthToken with
  | some config =>
    initTursoStorage config env >>= fun storage =>
      Except.ok (storage, migrateFromFileStorage db inp saveOk)
  | none =>
    (if env.initFails then
        Except.error ("Failed to init Turso storage").toList
      else Except.ok StorageChoice.tursoLocal)
      >>= fun storage =>
        Except.ok (storage, migrateFromFileStorage db inp saveOk)

/-- `createStorage` (storage-factory.ts lines 27-76): force File storage when
the `.contributor` directory is not accessible; otherwise, with Turso storage
enabled, run the `try` block and catch any error by falling back to File
storage; without Turso enabled use File storage. (The trailing
`createFileStorage` call is modelled as succeeding.) -/
def createStorage (enableTursoStorage dirAccessible : Bool)
    (tursoUrl tursoAuthToken : Option Str) (env : TursoEnv)
    (db : TursoDB) (inp : MigrationInput)
    (saveOk : Str → ReviewSnapshot → Bool) : StorageChoice :=
  if ¬ dirAccessible then StorageChoice.file
  else if enableTursoStorage then
    match tursoAttempt tursoUrl tursoAuthToken env db inp saveOk with
    | Except.ok s => s.1
    | Except.error _ => StorageChoice.file
  else StorageChoice.file

/-- C9: whenever any step of the Turso path (configuration validation,
initialization, health check, migration) raises an exception, `createStorage`
catches it and returns the File backend: no storage failure escapes
`createStorage`, which always returns a backend. -/
theorem createStorage_falls_back_to_file (enableTursoStorage dirAccessible : Bool)
    (tursoUrl tursoAuthToken : Option Str) (env : TursoEnv) (db : TursoDB)
    (inp : MigrationInput) (saveOk : Str → ReviewSnapshot → Bool) (e : Str)
    (h : tursoAttempt tursoUrl tursoAuthToken env db inp saveOk =
      Except.error e) :
    createStorage enableTursoStorage dirAccessible tursoUrl tursoAuthToken env
      db inp saveOk = StorageChoice.file := by
  unfold createStorage
  rw [h]
  by_cases hd : dirAccessible <;> by_cases he : enableTursoStorage <;>
    simp [hd, he]

/-- C9 witness: the fallback evaluated at a concrete environment in which the
Turso initialization throws. -/
theorem createStorage_falls_back_to_file_witness :
    tursoAttempt none (some ("t").toList)
        { initFails := true, healthOk := true } []
        { fileExists := false, parsed := none } (fun _ _ => true) =
      Except.error ("Failed to init Turso storage").toList
    ∧ createStorage true true none (some ("t").toList)
        { initFails := true, healthOk := true } []
        { fileExists := false, parsed := none } (fun _ _ => true) =
      StorageChoice.file :=
  ⟨rfl,
    createStorage_falls_back_to_file true true none (some ("t").toList)
      { initFails := true, healthOk := true } []
      { fileExists := false, parsed := none } (fun _ _ => true)
      (("Failed to init Turso storage").toList) rfl⟩

end CodeBunny

